import Mathlib

/-!
Verification development for the kids-hotline mobile client.

The definitions below are a shallow embedding of the client's data model and
pure logic: the API client helpers (`isVideoNew`, `formatCategoryName`,
`getVideoThumbnailUrl`, `getDocumentPageUrl`), the content aggregation
pipeline (`getContentByCategories`), the auth session state machine
(`AuthContext`), the request wrapper's 401 handling (`makeRequest`),
the subscription check (`checkSubscription`), the zoom gesture state
machine (`ZoomableImage`), and the watch-history store (`addToHistory`).

Conventions of the embedding:
* JavaScript timestamps (milliseconds since epoch) are modelled as `Int`;
  a `createdAt` string that is absent, empty or unparsable is `none`.
* Optional string fields follow JavaScript truthiness: the empty string
  counts as absent wherever the source tests `if (value)` or `value || d`;
  `truthyStr` and `jsOr` encode exactly that.
* Asynchronous storage and network effects are passed as explicit inputs
  (`Except` for fallible fetches, `Option`/record values for stored keys)
  and returned as explicit outputs.
-/

namespace KidsHotline

/-- JavaScript truthiness of an optional string: `none` and `some ""` are falsy. -/
def truthyStr (o : Option String) : Bool :=
  o.getD "" != ""

/-- JavaScript `o || d` on an optional string: falls back on `none` and on `""`. -/
def jsOr (o : Option String) (d : String) : String :=
  match o with
  | some s => if s == "" then d else s
  | none => d

/-- The `mediaType` discriminator on the unified `/api/videos` listing. -/
inductive MediaType where
  | video
  | audio
deriving DecidableEq

/-- A row of the unified video/audio listing (`VideoItem` in the source). -/
structure VideoItem where
  id : String
  title : String
  description : Option String
  mediaType : Option MediaType
  thumbnailPath : Option String
  bunnyThumbnailUrl : Option String
  bunnyGuid : Option String
  categoryId : Option String
  duration : Option Int
  createdAt : Option Int
  viewed : Bool
deriving DecidableEq

/-- `24 * 60 * 60 * 1000` milliseconds, as in `isVideoNew`. -/
def twentyFourHours : Int := 24 * 60 * 60 * 1000

/-- Embedding of `isVideoNew(video, locallyViewed)` with the current time
passed explicitly: no timestamp means not new; viewed by either source means
not new; otherwise new exactly when `now - createdTime < 24h`. -/
def isVideoNew (video : VideoItem) (locallyViewed : Bool) (now : Int) : Bool :=
  match video.createdAt with
  | none => false
  | some createdTime =>
    if locallyViewed || video.viewed then false
    else decide (now - createdTime < twentyFourHours)

/-- Characters the category formatter splits on (`/[-_]/`). -/
def isSepChar (c : Char) : Bool := c == '-' || c == '_'

/-- `category.split(/[-_]/)` on the character list, keeping empty segments. -/
def splitSegs : List Char → List (List Char)
  | [] => [[]]
  | c :: cs =>
    match splitSegs cs with
    | [] => [[c]]
    | seg :: segs =>
      if isSepChar c then [] :: seg :: segs else (c :: seg) :: segs

/-- `word.charAt(0).toUpperCase() + word.slice(1).toLowerCase()`. -/
def capitalizeWord : List Char → List Char
  | [] => []
  | c :: cs => c.toUpper :: cs.map Char.toLower

/-- `.join(" ")`. -/
def joinWords : List (List Char) → List Char
  | [] => []
  | [w] => w
  | w :: ws => w ++ ' ' :: joinWords ws

/-- Embedding of `formatCategoryName`: split on `-`/`_`, capitalize each
segment, join with spaces. -/
def formatCategoryName (category : String) : String :=
  ⟨joinWords ((splitSegs category.data).map capitalizeWord)⟩

/-- The fixed backend host. -/
def API_BASE_URL : String := "https://onetimeonetime.com"

/-- Embedding of `getDocumentPageUrl(documentId, pageNumber)`. -/
def getDocumentPageUrl (documentId : String) (pageNumber : Nat) : String :=
  API_BASE_URL ++ "/api/documents/" ++ documentId ++ "/page/" ++ toString pageNumber

/-- The document-pages effect of `ContentPlayerScreen`: for `i = 1` to
`pageCount`, push `getDocumentPageUrl(item.id, i)`. -/
def buildDocumentPages (itemId : String) (pageCount : Nat) : List String :=
  (List.range pageCount).map (fun i => getDocumentPageUrl itemId (i + 1))

/-- A row of `/api/video-categories`. -/
structure VideoCategory where
  id : String
  name : String
deriving DecidableEq

/-- A row of `/api/documents`. -/
structure DocumentItem where
  id : String
  title : String
  description : Option String
  pageCount : Option Nat
  allowDownload : Option Bool
  createdAt : Option Int
deriving DecidableEq

/-- The `type` tag of a normalized `ContentItem`. -/
inductive ContentType where
  | video
  | audio
  | document
deriving DecidableEq

/-- A normalized content item as produced by the aggregator; fields the
source leaves `undefined` are `none`. -/
structure ContentItem where
  id : String
  title : String
  description : Option String
  type : ContentType
  thumbnailUrl : Option String
  thumbnailRequiresAuth : Option Bool
  duration : Option Int
  pageCount : Option Nat
  categoryId : Option String
  createdAt : Option Int
  isNew : Option Bool
deriving DecidableEq

/-- A display section of the browse screen. -/
structure CategorySection where
  id : String
  name : String
  type : ContentType
  items : List ContentItem
deriving DecidableEq

/-- Embedding of `getVideoThumbnailUrl`: authenticated thumbnail endpoint
when `thumbnailPath` is set, else the stored CDN thumbnail URL, else a CDN
URL built from `bunnyGuid`, else no thumbnail. Returns `(url, requiresAuth)`. -/
def getVideoThumbnailUrl (video : VideoItem) : Option String × Bool :=
  if truthyStr video.thumbnailPath then
    (some (API_BASE_URL ++ "/api/videos/" ++ video.id ++ "/thumbnail"), true)
  else if truthyStr video.bunnyThumbnailUrl then
    (video.bunnyThumbnailUrl, false)
  else if truthyStr video.bunnyGuid then
    (some ("https://vz-b4f3c875-a3e.b-cdn.net/" ++ video.bunnyGuid.getD "" ++ "/thumbnail.jpg"), false)
  else
    (none, false)

/-- `item.categoryId || "uncategorized"`. -/
def itemCatId (item : VideoItem) : String :=
  jsOr item.categoryId "uncategorized"

/-- The per-item normalization inside a category section of
`getContentByCategories`. -/
def toContentItem (locallyViewed : List String) (now : Int) (item : VideoItem) : ContentItem :=
  let isAudio := item.mediaType == some MediaType.audio
  let thumb := getVideoThumbnailUrl item
  let viewedLocally := locallyViewed.contains item.id
  { id := item.id
    title := item.title
    description := item.description
    type := if isAudio then ContentType.audio else ContentType.video
    thumbnailUrl := if isAudio then none else thumb.1
    thumbnailRequiresAuth := some (if isAudio then false else thumb.2)
    duration := item.duration
    pageCount := none
    categoryId := item.categoryId
    createdAt := item.createdAt
    isNew := some (isVideoNew item viewedLocally now) }

/-- One step of filling the `contentByCategory` map: append the item to its
category bucket, creating the bucket at the end on first occurrence
(JavaScript `Map` insertion order). -/
def insertIntoBuckets (acc : List (String × List VideoItem)) (item : VideoItem) :
    List (String × List VideoItem) :=
  let catId := itemCatId item
  if acc.any (fun kv => kv.1 == catId) then
    acc.map (fun kv => if kv.1 == catId then (kv.1, kv.2 ++ [item]) else kv)
  else
    acc ++ [(catId, [item])]

/-- The `contentByCategory` map of `getContentByCategories`, as an
association list in insertion order. -/
def groupByCategory (items : List VideoItem) : List (String × List VideoItem) :=
  items.foldl insertIntoBuckets []

/-- `categoryMap.get(categoryId)` where the map is built from the category
list (later entries overwrite earlier ones, as in `new Map(...)`). -/
def categoryLookup (cats : List VideoCategory) (cid : String) : Option String :=
  cats.foldl (fun acc c => if c.id == cid then some c.name else acc) none

/-- The category section built for one bucket of `contentByCategory`. -/
def mkCategorySection (cats : List VideoCategory) (locallyViewed : List String)
    (now : Int) (bucket : String × List VideoItem) : CategorySection :=
  { id := "content-" ++ bucket.1
    name := jsOr (categoryLookup cats bucket.1) (formatCategoryName bucket.1)
    type := ContentType.video
    items := bucket.2.map (toContentItem locallyViewed now) }

/-- The normalization of a document row inside the "Documents" section. -/
def toDocContentItem (d : DocumentItem) : ContentItem :=
  { id := d.id
    title := d.title
    description := d.description
    type := ContentType.document
    thumbnailUrl := none
    thumbnailRequiresAuth := none
    duration := none
    pageCount := d.pageCount
    categoryId := none
    createdAt := d.createdAt
    isNew := none }

/-- The single "Documents" section appended when any documents exist. -/
def documentsSection (documents : List DocumentItem) : CategorySection :=
  { id := "documents"
    name := "Documents"
    type := ContentType.document
    items := documents.map toDocContentItem }

/-- `fetch().catch(() => [])`: a failed remote fetch degrades to the empty
collection. -/
def fetchOr {α : Type} (r : Except Unit (List α)) : List α :=
  match r with
  | .ok l => l
  | .error _ => []

/-- Embedding of `getContentByCategories`: the three remote fetch results and
the locally-viewed id set are explicit inputs; each failed fetch is replaced
by `[]`; one section per category bucket in insertion order, then the
"Documents" section when any documents exist. -/
def getContentByCategories (catResult : Except Unit (List VideoCategory))
    (videosResult : Except Unit (List VideoItem))
    (docsResult : Except Unit (List DocumentItem))
    (locallyViewed : List String) (now : Int) : List CategorySection :=
  let videoCategories := fetchOr catResult
  let allContent := fetchOr videosResult
  let documents := fetchOr docsResult
  (groupByCategory allContent).map (mkCategorySection videoCategories locallyViewed now)
    ++ (if documents.length > 0 then [documentsSection documents] else [])

/-- The user record held by the auth session. -/
structure User where
  id : String
  email : String
  name : Option String
  avatarUrl : Option String
deriving DecidableEq

/-- The in-memory auth session state of `AuthProvider` (`AuthState` in the
source). -/
structure AuthState where
  isAuthenticated : Bool
  user : Option User
  token : Option String
  isLoading : Bool
deriving DecidableEq

/-- The provider's initial state: anonymous and hydrating. -/
def initialAuthState : AuthState :=
  { isAuthenticated := false, user := none, token := none, isLoading := true }

/-- Embedding of `loadStoredAuth`: given the stored token and user (either
may be absent; a storage failure reads as both absent), become authenticated
exactly when both are present (a stored empty-string token is falsy), else
only clear the loading flag. -/
def loadStoredAuth (s : AuthState) (storedToken : Option String)
    (storedUser : Option User) : AuthState :=
  if truthyStr storedToken && storedUser.isSome then
    { isAuthenticated := true, user := storedUser, token := storedToken, isLoading := false }
  else
    { s with isLoading := false }

/-- Embedding of the `login` callback: on a successful response persist and
adopt the returned token and user; on failure (non-2xx or network error)
return the structured error and leave the state unchanged. -/
def login (s : AuthState) (result : Except String (String × User)) : AuthState :=
  match result with
  | .ok (token, user) =>
    { isAuthenticated := true, user := some user, token := some token, isLoading := false }
  | .error _ => s

/-- Embedding of the `logout` callback. -/
def logout (_s : AuthState) : AuthState :=
  { isAuthenticated := false, user := none, token := none, isLoading := false }

/-- The session invariant claimed by the spec. -/
def authInvariant (s : AuthState) : Prop :=
  s.isAuthenticated = (s.token.isSome && s.user.isSome)

/-- The relevant keys of the persistent key-value store for the request
wrapper: auth token, serialized user, cached subscription, and the
locally-viewed id set (which `clearAuth` must not touch). -/
structure StoredState where
  authToken : Option String
  userData : Option String
  subscription : Option String
  viewedContent : Option String
deriving DecidableEq

/-- Embedding of `clearAuth` (richest variant): remove the token, user and
cached subscription keys. -/
def clearAuth (st : StoredState) : StoredState :=
  { st with authToken := none, userData := none, subscription := none }

/-- The error taxonomy of the request wrapper: a 401 maps to `authExpired`,
any other non-2xx maps to `requestFailed`. -/
inductive ApiError where
  | authExpired (msg : String)
  | requestFailed (msg : String)
deriving DecidableEq

/-- `Response.ok` of the fetch API: status in the range 200-299. -/
def respOk (status : Nat) : Bool :=
  200 ≤ status && status ≤ 299

/-- The user-facing message thrown on a 401. -/
def authExpiredMessage : String :=
  "Couldn\x27t find account info. Double check credentials. You can reset your password at onetimeonetime.com/login"

/-- Embedding of `makeRequest` after the response is received: stored state
in, updated stored state and typed result out. A 401 purges credentials and
fails with `authExpired`; any other non-2xx fails with `requestFailed` using
the body's `message` field when truthy; a 2xx returns the parsed body. -/
def makeRequest (st : StoredState) (status : Nat) (errMessage : Option String)
    {T : Type} (body : T) : StoredState × Except ApiError T :=
  if status = 401 then
    (clearAuth st, Except.error (ApiError.authExpired authExpiredMessage))
  else if !respOk status then
    (st, Except.error (ApiError.requestFailed (jsOr errMessage ("Request failed: " ++ toString status))))
  else
    (st, Except.ok body)

/-- The subscription status record returned by `/api/mobile/subscription`. -/
structure SubscriptionStatus where
  subscriptionStatus : String
  active : Bool
  isWhitelisted : Option Bool
  trialDaysRemaining : Option (Option Int)
deriving DecidableEq

/-- The hardcoded status returned by `checkSubscription` when the remote
check fails: fail-open. -/
def failOpenStatus : SubscriptionStatus :=
  { subscriptionStatus := "unknown", active := true, isWhitelisted := some false,
    trialDaysRemaining := none }

/-- Embedding of `checkSubscription`: remote result and cached value in,
returned status and new cached value out. On success the response is
persisted and returned; on failure the hardcoded fail-open status is
returned and the cache is left unchanged (it is not read back). -/
def checkSubscription (remote : Except ApiError SubscriptionStatus)
    (cached : Option SubscriptionStatus) : SubscriptionStatus × Option SubscriptionStatus :=
  match remote with
  | .ok r => (r, some r)
  | .error _ => (failOpenStatus, cached)

/-- The shared-value state of `ZoomableImage`. -/
structure ZoomState where
  scale : ℚ
  savedScale : ℚ
  translateX : ℚ
  translateY : ℚ
  savedTranslateX : ℚ
  savedTranslateY : ℚ
deriving DecidableEq

/-- The initial zoom state: scale 1, no translation. -/
def initialZoom : ZoomState :=
  { scale := 1, savedScale := 1, translateX := 0, translateY := 0,
    savedTranslateX := 0, savedTranslateY := 0 }

/-- Embedding of the pinch `onUpdate` handler:
`scale.value = Math.min(Math.max(savedScale.value * event.scale, 1), 4)`. -/
def pinchUpdate (s : ZoomState) (eventScale : ℚ) : ZoomState :=
  { s with scale := min (max (s.savedScale * eventScale) 1) 4 }

/-- Embedding of the pinch `onEnd` handler: save the scale, and when the
scale is at most 1 reset scale and translation (the `withTiming` animations
settle at the written targets). -/
def pinchEnd (s : ZoomState) : ZoomState :=
  if s.scale ≤ 1 then
    { s with
      scale := 1
      savedScale := 1
      translateX := 0
      translateY := 0
      savedTranslateX := 0
      savedTranslateY := 0 }
  else
    { s with savedScale := s.scale }

/-- The content type used by the favorites/history store (`content.ts`). -/
inductive HContentType where
  | video
  | audio
  | photo
deriving DecidableEq

/-- The `ContentItem` shape of `content.ts`. -/
structure HContentItem where
  id : String
  title : String
  description : String
  type : HContentType
  thumbnailUrl : String
  mediaUrl : String
  duration : Option Int
  category : String
  createdAt : String
deriving DecidableEq

/-- A persisted watch-history entry: a content item plus watch metadata. -/
structure HistoryItem extends HContentItem where
  watchedAt : String
  progress : Option ℚ
deriving DecidableEq

/-- Embedding of `addToHistory`: remove a pre-existing entry with the same
id (`findIndex` + `splice`), prepend the new entry (`unshift`), and keep the
first 50 entries (`slice(0, 50)`). The persisted list is passed and returned
explicitly. -/
def addToHistory (history : List HistoryItem) (item : HContentItem)
    (watchedAt : String) (progress : Option ℚ) : List HistoryItem :=
  let history2 :=
    match history.findIdx? (fun h => h.id == item.id) with
    | some i => history.eraseIdx i
    | none => history
  let historyItem : HistoryItem :=
    { toHContentItem := item, watchedAt := watchedAt, progress := progress }
  (historyItem :: history2).take 50

/-- The id projection of a history list. -/
def historyIds (l : List HistoryItem) : List String :=
  l.map (fun h => h.id)

/-! ## Theorems -/

/-- C1: the is-new classification is true exactly when the item has a
creation timestamp, is viewed by neither source (server `viewed` flag false
and id absent from the local viewed set), and `now - createdAt` is strictly
less than 24 hours; in particular it is false for every item 24h or older
regardless of viewed state, and false for every item viewed by either
source. -/
theorem isVideoNew_correct (v : VideoItem) (lv : Bool) (now : Int) :
    (isVideoNew v lv now = true ↔
      ∃ c, v.createdAt = some c ∧ lv = false ∧ v.viewed = false ∧
        now - c < twentyFourHours)
    ∧ (∀ c, v.createdAt = some c → twentyFourHours ≤ now - c →
        isVideoNew v lv now = false)
    ∧ ((lv = true ∨ v.viewed = true) → isVideoNew v lv now = false) := by
  rcases hc : v.createdAt with _ | c <;>
    simp only [isVideoNew, hc] <;>
    cases lv <;> cases hv : v.viewed <;>
    simp_all

/-- A sample item created at time 0, viewed by neither source. -/
def sampleVideo : VideoItem :=
  { id := "v1", title := "t", description := none, mediaType := none,
    thumbnailPath := none, bunnyThumbnailUrl := none, bunnyGuid := none,
    categoryId := none, duration := none, createdAt := some 0, viewed := false }

/-- Witness for C1: the sample item is not new 24 hours and 5 ms after its
creation time. -/
theorem isVideoNew_correct_witness :
    isVideoNew sampleVideo false (twentyFourHours + 5) = false :=
  (isVideoNew_correct sampleVideo false (twentyFourHours + 5)).2.1 0 rfl (by decide)

/-- A list of characters containing no separator splits into itself alone. -/
theorem splitSegs_eq_of_no_sep (l : List Char) (h : ∀ c ∈ l, isSepChar c = false) :
    splitSegs l = [l] := by
  induction l with
  | nil => rfl
  | cons c cs ih =>
    have hc : isSepChar c = false := h c (List.mem_cons_self c cs)
    have ih' := ih (fun x hx => h x (List.mem_cons_of_mem c hx))
    simp [splitSegs, ih', hc]

/-- C8: category name formatting splits on `-`/`_`, capitalizes each segment
and joins with spaces, so `formatCategoryName "one-daf-one-daf" =
"One Daf One Daf"`; and it is the identity on any already-capitalized string
containing no separators, in particular on `"Videos"`. -/
theorem formatCategoryName_spec :
    formatCategoryName "one-daf-one-daf" = "One Daf One Daf"
    ∧ formatCategoryName "Videos" = "Videos"
    ∧ ∀ s : String, (∀ c ∈ s.data, isSepChar c = false) →
        capitalizeWord s.data = s.data → formatCategoryName s = s := by
  refine ⟨by decide, by decide, ?_⟩
  intro s hsep hcap
  obtain ⟨dat⟩ := s
  have h1 : splitSegs dat = [dat] := splitSegs_eq_of_no_sep dat hsep
  have h2 : joinWords ((splitSegs dat).map capitalizeWord) = dat := by
    rw [h1]; simpa [joinWords] using hcap
  exact congrArg String.mk h2

/-- Witness for C8: the idempotence conjunct applied at `"Videos"`. -/
theorem formatCategoryName_spec_witness :
    formatCategoryName "Videos" = "Videos" :=
  formatCategoryName_spec.2.2 "Videos" (by decide) (by decide)

/-- C9: for a document with page count `n ≥ 1`, the synthesized page URL
list has exactly `n` entries, and the entry at (0-based) index `i` is the
page URL for page number `i + 1` of the document's id. -/
theorem documentPages_correct (itemId : String) (n : Nat) (_h : 1 ≤ n) :
    (buildDocumentPages itemId n).length = n
    ∧ ∀ i, i < n →
        (buildDocumentPages itemId n)[i]? = some (getDocumentPageUrl itemId (i + 1)) := by
  constructor
  · simp [buildDocumentPages]
  · intro i hi
    simp [buildDocumentPages, hi]

/-- Witness for C9: a two-page document yields two URLs and the second one
is the URL of page 2. -/
theorem documentPages_correct_witness :
    (buildDocumentPages "doc1" 2).length = 2 ∧
    (buildDocumentPages "doc1" 2)[1]? = some (getDocumentPageUrl "doc1" 2) :=
  ⟨(documentPages_correct "doc1" 2 (by decide)).1,
   (documentPages_correct "doc1" 2 (by decide)).2 1 (by decide)⟩

/-- A truthy stored string is present. -/
theorem truthyStr_isSome {o : Option String} (h : truthyStr o = true) :
    o.isSome = true := by
  rcases o with _ | s <;> simp [truthyStr] at h ⊢

/-- C3: the session invariant `isAuthenticated = (token present and user
present)` holds in the initial state, after hydration from storage (from any
invariant state, and from the initial state hydration authenticates exactly
when a nonempty token and a user were both stored), after a successful or
failed `login`, and after `logout`. -/
theorem authInvariant_preserved :
    authInvariant initialAuthState
    ∧ (∀ s tok usr, authInvariant s → authInvariant (loadStoredAuth s tok usr))
    ∧ (∀ tok usr, (loadStoredAuth initialAuthState tok usr).isAuthenticated =
        (truthyStr tok && usr.isSome))
    ∧ (∀ s r, authInvariant s → authInvariant (login s r))
    ∧ (∀ s, authInvariant (logout s)) := by
  refine ⟨rfl, ?_, ?_, ?_, fun s => rfl⟩
  · intro s tok usr hs
    unfold loadStoredAuth
    cases hcond : (truthyStr tok && usr.isSome) with
    | true =>
      rw [Bool.and_eq_true] at hcond
      simp [authInvariant, truthyStr_isSome hcond.1, hcond.2]
    | false => simpa [authInvariant, hcond] using hs
  · intro tok usr
    unfold loadStoredAuth
    cases hcond : (truthyStr tok && usr.isSome) with
    | true => simp [hcond]
    | false => simp [hcond, initialAuthState]
  · intro s r hs
    rcases r with e | ⟨t, u⟩
    · exact hs
    · rfl

/-- Witness for C3: a failed login from the initial state keeps the
invariant. -/
theorem authInvariant_preserved_witness :
    authInvariant (login initialAuthState (Except.error "bad credentials")) :=
  authInvariant_preserved.2.2.2.1 initialAuthState (Except.error "bad credentials") rfl

/-- C4: an HTTP 401 response, and only a 401, purges the stored token, user
record and cached subscription (leaving other keys alone), and the call
fails with the `authExpired` error whose message directs the user to reset
the password at the web property; for any other status the stored state is
untouched. -/
theorem makeRequest_401_behavior (st : StoredState) (status : Nat)
    (em : Option String) {T : Type} (body : T) :
    (status = 401 →
      (makeRequest st status em body).1 =
        { st with authToken := none, userData := none, subscription := none }
      ∧ (makeRequest st status em body).2 =
          Except.error (ApiError.authExpired authExpiredMessage))
    ∧ (status ≠ 401 → (makeRequest st status em body).1 = st) := by
  constructor
  · intro h; subst h; exact ⟨rfl, rfl⟩
  · intro h
    unfold makeRequest
    rw [if_neg h]
    cases hok : respOk status <;> simp [hok]

/-- A stored state with all four keys present. -/
def sampleStored : StoredState :=
  { authToken := some "tok", userData := some "usr", subscription := some "sub",
    viewedContent := some "[]" }

/-- Witness for C4: a 401 purges the credentials of a fully populated
store while a 200 leaves it untouched. -/
theorem makeRequest_401_behavior_witness :
    (makeRequest sampleStored 401 none "ignored").1 =
      { sampleStored with authToken := none, userData := none, subscription := none }
    ∧ (makeRequest sampleStored 200 none "ok").1 = sampleStored :=
  ⟨((makeRequest_401_behavior sampleStored 401 none "ignored").1 rfl).1,
   (makeRequest_401_behavior sampleStored 200 none "ok").2 (by decide)⟩

/-- A cached subscription status that is inactive. -/
def inactiveCached : SubscriptionStatus :=
  { subscriptionStatus := "canceled", active := false, isWhitelisted := some false,
    trialDaysRemaining := none }

/-- C7 counterexample: with an inactive status in the cache and a failing
remote check, `checkSubscription` does not fall back to the cached status:
it returns the hardcoded fail-open status instead. -/
theorem checkSubscription_ignores_cache :
    (checkSubscription (Except.error (ApiError.requestFailed "network"))
        (some inactiveCached)).1 ≠ inactiveCached
    ∧ (checkSubscription (Except.error (ApiError.requestFailed "network"))
        (some inactiveCached)).1 = failOpenStatus := by
  exact ⟨by decide, rfl⟩

/-- C7 (amended): on a successful remote fetch `checkSubscription` persists
the returned status and returns it; when the remote check fails it returns
the fixed fail-open status (`active = true`), leaving the cache unchanged
and never consulting it. -/
theorem checkSubscription_amended (remote : Except ApiError SubscriptionStatus)
    (cached : Option SubscriptionStatus) :
    (∀ r, remote = Except.ok r → checkSubscription remote cached = (r, some r))
    ∧ (∀ e, remote = Except.error e →
        (checkSubscription remote cached).1 = failOpenStatus
        ∧ (checkSubscription remote cached).1.active = true
        ∧ (checkSubscription remote cached).2 = cached) := by
  constructor
  · intro r h; subst h; rfl
  · intro e h; subst h; exact ⟨rfl, rfl, rfl⟩

/-- Witness for C7 (amended): a failing remote check with an empty cache
returns an active (fail-open) status. -/
theorem checkSubscription_amended_witness :
    (checkSubscription (Except.error (ApiError.authExpired "m")) none).1.active = true :=
  ((checkSubscription_amended (Except.error (ApiError.authExpired "m")) none).2
    (ApiError.authExpired "m") rfl).2.1

/-- C5 counterexample: a pinch update from the rest state with event scale
1.05 leaves the scale at 21/20, strictly below the claimed 1.1 threshold;
releasing the pinch there does not reset the scale to 1 (the code only
resets when the scale is at most 1). -/
theorem pinch_release_below_threshold_cex :
    (pinchUpdate initialZoom (21/20)).scale < 11/10
    ∧ (pinchEnd (pinchUpdate initialZoom (21/20))).scale ≠ 1
    ∧ (pinchEnd (pinchUpdate initialZoom (21/20))).scale = 21/20 := by
  have hup : (pinchUpdate initialZoom (21/20)).scale = 21/20 := by
    show min (max ((1:ℚ) * (21/20)) 1) 4 = 21/20
    rw [one_mul, max_eq_left (by norm_num), min_eq_left (by norm_num)]
  have hend : (pinchEnd (pinchUpdate initialZoom (21/20))).scale = 21/20 := by
    unfold pinchEnd
    rw [hup, if_neg (by norm_num)]
  exact ⟨by rw [hup]; norm_num, by rw [hend]; norm_num, hend⟩

/-- C5 (amended): after any pinch update the scale is clamped to `[1, 4]`;
releasing a pinch with the scale at most 1 resets the scale to exactly 1 and
the translation to `(0, 0)`; releasing with any scale above 1 (including
scales strictly below 1.1) only saves the current scale and changes nothing
else. -/
theorem zoom_clamp_and_reset (s : ZoomState) (e : ℚ) :
    (1 ≤ (pinchUpdate s e).scale ∧ (pinchUpdate s e).scale ≤ 4)
    ∧ (s.scale ≤ 1 → pinchEnd s =
        { s with
          scale := 1
          savedScale := 1
          translateX := 0
          translateY := 0
          savedTranslateX := 0
          savedTranslateY := 0 })
    ∧ (1 < s.scale → pinchEnd s = { s with savedScale := s.scale }) := by
  refine ⟨⟨le_min (le_max_right _ _) (by norm_num), min_le_right _ _⟩, ?_, ?_⟩
  · intro h
    simp [pinchEnd, h]
  · intro h
    simp [pinchEnd, not_le.mpr h]

/-- Witness for C5 (amended): releasing at the rest state is a no-op reset,
and an update with event scale 2 keeps the scale at least 1. -/
theorem zoom_clamp_and_reset_witness :
    pinchEnd initialZoom = initialZoom ∧ 1 ≤ (pinchUpdate initialZoom 2).scale :=
  ⟨(zoom_clamp_and_reset initialZoom 2).2.1 (le_refl 1),
   (zoom_clamp_and_reset initialZoom 2).1.1⟩

/-- `findIndex` followed by a one-element `splice` is removal of the first
match. -/
theorem findIdx_erase_eq_eraseP {α : Type} (p : α → Bool) (l : List α) :
    (match l.findIdx? p with
     | some i => l.eraseIdx i
     | none => l) = l.eraseP p := by
  induction l with
  | nil => rfl
  | cons x xs ih =>
    by_cases hx : p x
    · rw [List.findIdx?_cons, if_pos hx]
      simp [List.eraseP_cons_of_pos hx]
    · rw [List.findIdx?_cons, if_neg hx, List.findIdx?_succ, List.eraseP_cons_of_neg hx]
      cases hfi : xs.findIdx? p with
      | none =>
        rw [hfi] at ih
        simp [hfi, ← ih]
      | some i =>
        rw [hfi] at ih
        simp only [hfi, Option.map_some', List.eraseIdx_cons_succ]
        exact congrArg (fun t => x :: t) ih

/-- Unfolded form of `addToHistory`. -/
theorem addToHistory_eq (history : List HistoryItem) (item : HContentItem)
    (w : String) (p : Option ℚ) :
    addToHistory history item w p =
      (({ toHContentItem := item, watchedAt := w, progress := p } : HistoryItem) ::
        history.eraseP (fun h => h.id == item.id)).take 50 := by
  simp only [addToHistory]
  rw [findIdx_erase_eq_eraseP]

/-- If the ids of a history list are distinct, removing the first entry with
a given id leaves no entry with that id. -/
theorem erase_same_id_not_mem (item : HContentItem) :
    ∀ l : List HistoryItem, (historyIds l).Nodup →
      item.id ∉ historyIds (l.eraseP (fun h => h.id == item.id)) := by
  intro l
  induction l with
  | nil =>
    intro _
    simp [historyIds]
  | cons a t ih =>
    intro hnd
    simp only [historyIds, List.map_cons] at hnd
    obtain ⟨ha, ht⟩ := List.nodup_cons.mp hnd
    by_cases hid : (a.id == item.id) = true
    · rw [@List.eraseP_cons_of_pos _ a t (fun h => h.id == item.id) hid]
      have heq : a.id = item.id := by simpa using hid
      rw [← heq]
      exact ha
    · rw [@List.eraseP_cons_of_neg _ a t (fun h => h.id == item.id) hid]
      simp only [historyIds, List.map_cons]
      intro hmem
      rcases List.mem_cons.mp hmem with heq | hmem'
      · exact hid (by simp [heq])
      · exact ih ht hmem'

/-- C10: after every `addToHistory` call the persisted list has the new
entry first and length at most 50, and when the incoming list has at most
one entry per id (distinct ids), so does the result: the pre-existing entry
with the added id is removed before insertion and overflow beyond 50 is
dropped. -/
theorem addToHistory_invariant (history : List HistoryItem) (item : HContentItem)
    (w : String) (p : Option ℚ) :
    (addToHistory history item w p).head? =
      some { toHContentItem := item, watchedAt := w, progress := p }
    ∧ (addToHistory history item w p).length ≤ 50
    ∧ ((historyIds history).Nodup → (historyIds (addToHistory history item w p)).Nodup) := by
  rw [addToHistory_eq]
  rw [show (50 : Nat) = 49 + 1 from rfl, List.take_succ_cons]
  refine ⟨rfl, ?_, ?_⟩
  · exact Nat.succ_le_succ (List.length_take_le 49 _)
  · intro hnd
    simp only [historyIds, List.map_cons]
    refine List.nodup_cons.mpr ⟨?_, ?_⟩
    · intro hmem
      have hsub : (List.take 49 (history.eraseP (fun h => h.id == item.id))).map
            (fun h => h.id) |>.Sublist
          ((history.eraseP (fun h => h.id == item.id)).map (fun h => h.id)) :=
        List.Sublist.map _ (List.take_sublist 49 _)
      exact erase_same_id_not_mem item history hnd (hsub.mem hmem)
    · have hsub : (List.take 49 (history.eraseP (fun h => h.id == item.id))).map
            (fun h => h.id) |>.Sublist (historyIds history) :=
        List.Sublist.map _ ((List.take_sublist 49 _).trans (List.eraseP_sublist _))
      exact hnd.sublist hsub

/-- A sample content item for the history store. -/
def sampleHContent : HContentItem :=
  { id := "c1", title := "t", description := "", type := HContentType.video,
    thumbnailUrl := "", mediaUrl := "", duration := none, category := "",
    createdAt := "" }

/-- Witness for C10: adding to the empty history yields a duplicate-free
list of length at most 50. -/
theorem addToHistory_invariant_witness :
    (historyIds (addToHistory [] sampleHContent "2024-01-01" none)).Nodup ∧
    (addToHistory [] sampleHContent "2024-01-01" none).length ≤ 50 :=
  ⟨(addToHistory_invariant [] sampleHContent "2024-01-01" none).2.2
      (by simp [historyIds]),
   (addToHistory_invariant [] sampleHContent "2024-01-01" none).2.1⟩

/-- A successful fetch yields its list. -/
theorem fetchOr_ok {α : Type} (l : List α) : fetchOr (Except.ok l) = l := rfl

/-- The keys of a listing in order of first occurrence, relative to a set of
keys already seen. -/
def firstOccAux (seen : List String) : List String → List String
  | [] => []
  | k :: ks => if k ∈ seen then firstOccAux seen ks else k :: firstOccAux (k :: seen) ks

/-- The keys of a listing in order of first occurrence. -/
def firstOcc (l : List String) : List String :=
  firstOccAux [] l

/-- `firstOccAux` only depends on the membership of the seen set. -/
theorem firstOccAux_congr :
    ∀ (l s1 s2 : List String), (∀ x, x ∈ s1 ↔ x ∈ s2) →
      firstOccAux s1 l = firstOccAux s2 l := by
  intro l
  induction l with
  | nil => intro _ _ _; rfl
  | cons k ks ih =>
    intro s1 s2 h
    by_cases hk : k ∈ s1
    · simp only [firstOccAux, if_pos hk, if_pos ((h k).mp hk)]
      exact ih s1 s2 h
    · simp only [firstOccAux, if_neg hk, if_neg (fun hx => hk ((h k).mpr hx))]
      rw [ih (k :: s1) (k :: s2) (fun x => by simp [h x])]

/-- `firstOccAux` emits no duplicates and nothing already seen. -/
theorem firstOccAux_nodup :
    ∀ (l seen : List String),
      (firstOccAux seen l).Nodup ∧ ∀ x ∈ firstOccAux seen l, x ∉ seen := by
  intro l
  induction l with
  | nil =>
    intro seen
    refine ⟨List.nodup_nil, ?_⟩
    intro x hx
    simp [firstOccAux] at hx
  | cons k ks ih =>
    intro seen
    by_cases hk : k ∈ seen
    · simp only [firstOccAux, if_pos hk]
      exact ih seen
    · simp only [firstOccAux, if_neg hk]
      obtain ⟨hnd, hmem⟩ := ih (k :: seen)
      refine ⟨List.nodup_cons.mpr ⟨fun hx => hmem k hx (List.mem_cons_self k seen), hnd⟩, ?_⟩
      intro x hx
      rcases List.mem_cons.mp hx with rfl | hx'
      · exact hk
      · exact fun hxs => hmem x hx' (List.mem_cons_of_mem k hxs)

/-- The keys of `firstOcc` are distinct. -/
theorem firstOcc_nodup (l : List String) : (firstOcc l).Nodup :=
  (firstOccAux_nodup l []).1

/-- Inserting an item leaves the bucket keys unchanged when its category is
present and appends its category otherwise. -/
theorem insertIntoBuckets_keys (acc : List (String × List VideoItem)) (item : VideoItem) :
    (insertIntoBuckets acc item).map Prod.fst =
      if itemCatId item ∈ acc.map Prod.fst then acc.map Prod.fst
      else acc.map Prod.fst ++ [itemCatId item] := by
  simp only [insertIntoBuckets]
  by_cases h : itemCatId item ∈ acc.map Prod.fst
  · have hany : (acc.any fun kv => kv.1 == itemCatId item) = true := by
      rw [List.any_eq_true]
      obtain ⟨kv, hkv, hfst⟩ := List.mem_map.mp h
      exact ⟨kv, hkv, by simp [hfst]⟩
    rw [if_pos h, hany, if_pos rfl, List.map_map]
    apply List.map_congr_left
    intro kv _
    simp only [Function.comp_apply]
    split <;> rfl
  · have hany : (acc.any fun kv => kv.1 == itemCatId item) = false := by
      rw [List.any_eq_false]
      intro kv hkv hbeq
      exact h (List.mem_map.mpr ⟨kv, hkv, by simpa using hbeq⟩)
    rw [if_neg h, hany]
    simp

/-- The bucket keys produced by folding `insertIntoBuckets` are the seen
keys followed by the unseen listing keys in first-occurrence order. -/
theorem foldl_insert_keys :
    ∀ (items : List VideoItem) (acc : List (String × List VideoItem)),
      (items.foldl insertIntoBuckets acc).map Prod.fst =
        acc.map Prod.fst ++ firstOccAux (acc.map Prod.fst) (items.map itemCatId) := by
  intro items
  induction items with
  | nil =>
    intro acc
    simp [firstOccAux]
  | cons item rest ih =>
    intro acc
    rw [List.foldl_cons, ih (insertIntoBuckets acc item), insertIntoBuckets_keys]
    by_cases h : itemCatId item ∈ acc.map Prod.fst
    · rw [if_pos h]
      simp only [List.map_cons, firstOccAux, if_pos h]
    · rw [if_neg h]
      simp only [List.map_cons, firstOccAux, if_neg h, List.append_assoc,
        List.singleton_append]
      rw [firstOccAux_congr (rest.map itemCatId) (acc.map Prod.fst ++ [itemCatId item])
        (itemCatId item :: acc.map Prod.fst) (fun x => by simp [or_comm])]

/-- The bucket keys of the category partition are the listing's category ids
in order of first occurrence. -/
theorem groupByCategory_keys (items : List VideoItem) :
    (groupByCategory items).map Prod.fst = firstOcc (items.map itemCatId) := by
  simpa [firstOcc] using foldl_insert_keys items []

/-- C2: aggregation is resilient to partial fetch failure: a failed
category, content or document fetch produces the same sections as a
successful empty fetch; when the document fetch fails every category section
still appears; and when the category-list fetch fails every category section
appears with its name produced by the `formatCategoryName` fallback on the
bucket's category id. -/
theorem aggregation_resilient :
    (∀ vids docs lv now,
      getContentByCategories (Except.error ()) vids docs lv now =
        getContentByCategories (Except.ok []) vids docs lv now)
    ∧ (∀ cats docs lv now,
      getContentByCategories cats (Except.error ()) docs lv now =
        getContentByCategories cats (Except.ok []) docs lv now)
    ∧ (∀ cats vids lv now,
      getContentByCategories cats vids (Except.error ()) lv now =
        getContentByCategories cats vids (Except.ok []) lv now)
    ∧ (∀ cats vids lv now, ∀ b ∈ groupByCategory (fetchOr vids),
      mkCategorySection (fetchOr cats) lv now b ∈
        getContentByCategories cats vids (Except.error ()) lv now)
    ∧ (∀ vids docs lv now, ∀ sec ∈ getContentByCategories (Except.error ()) vids docs lv now,
      sec.id = "documents" ∨
        ∃ b ∈ groupByCategory (fetchOr vids),
          sec = mkCategorySection [] lv now b ∧ sec.name = formatCategoryName b.1) := by
  refine ⟨fun _ _ _ _ => rfl, fun _ _ _ _ => rfl, fun _ _ _ _ => rfl, ?_, ?_⟩
  · intro cats vids lv now b hb
    simp only [getContentByCategories, fetchOr, List.length_nil, gt_iff_lt,
      Nat.lt_irrefl, if_false]
    exact List.mem_append_left _ (List.mem_map_of_mem _ hb)
  · intro vids docs lv now sec hsec
    simp only [getContentByCategories] at hsec
    rcases List.mem_append.mp hsec with hl | hr
    · obtain ⟨b, hb, rfl⟩ := List.mem_map.mp hl
      exact Or.inr ⟨b, hb, rfl, rfl⟩
    · left
      by_cases h : (fetchOr docs).length > 0
      · rw [if_pos h] at hr
        rcases List.mem_singleton.mp hr with rfl
        rfl
      · rw [if_neg h] at hr
        simp at hr

/-- Witness for C2: with a one-item listing and a failed document fetch, the
single category section is present in the aggregation result. -/
theorem aggregation_resilient_witness :
    mkCategorySection [] [] 0 ("uncategorized", [sampleVideo]) ∈
      getContentByCategories (Except.ok []) (Except.ok [sampleVideo])
        (Except.error ()) [] 0 :=
  aggregation_resilient.2.2.2.1 (Except.ok []) (Except.ok [sampleVideo]) [] 0
    ("uncategorized", [sampleVideo]) (by decide)

/-- C6: sections are exactly one per distinct category bucket, all with
`type` set to `video` regardless of the audio/video mix; section order is
the first-occurrence order of the category ids in the listing (missing ids
bucketed as "uncategorized"); and exactly one "Documents" section is
appended after all category sections when at least one document exists,
none otherwise. -/
theorem sections_structure (cats : List VideoCategory) (vids : List VideoItem)
    (docs : List DocumentItem) (lv : List String) (now : Int) :
    ((getContentByCategories (Except.ok cats) (Except.ok vids) (Except.ok docs) lv now).map
        CategorySection.id =
      (firstOcc (vids.map itemCatId)).map (fun k => "content-" ++ k)
        ++ (if docs.length > 0 then ["documents"] else []))
    ∧ (firstOcc (vids.map itemCatId)).Nodup
    ∧ (∀ sec ∈ (groupByCategory vids).map (mkCategorySection cats lv now),
        sec.type = ContentType.video)
    ∧ (docs.length > 0 →
        getContentByCategories (Except.ok cats) (Except.ok vids) (Except.ok docs) lv now =
          (groupByCategory vids).map (mkCategorySection cats lv now)
            ++ [documentsSection docs])
    ∧ (docs = [] →
        getContentByCategories (Except.ok cats) (Except.ok vids) (Except.ok docs) lv now =
          (groupByCategory vids).map (mkCategorySection cats lv now))
    ∧ (documentsSection docs).name = "Documents" := by
  refine ⟨?_, firstOcc_nodup _, ?_, ?_, ?_, rfl⟩
  · simp only [getContentByCategories, fetchOr_ok, List.map_append]
    rw [apply_ite (List.map CategorySection.id), List.map_map,
      ← groupByCategory_keys, List.map_map]
    rfl
  · intro sec hsec
    obtain ⟨b, _, rfl⟩ := List.mem_map.mp hsec
    rfl
  · intro h
    simp only [getContentByCategories, fetchOr_ok]
    rw [if_pos h]
  · intro h
    subst h
    simp [getContentByCategories, fetchOr_ok]

/-- A sample document row. -/
def sampleDoc : DocumentItem :=
  { id := "d1", title := "doc", description := none, pageCount := some 3,
    allowDownload := none, createdAt := none }

/-- Witness for C6: one listing item and one document produce the category
section followed by the "Documents" section. -/
theorem sections_structure_witness :
    getContentByCategories (Except.ok []) (Except.ok [sampleVideo])
        (Except.ok [sampleDoc]) [] 0 =
      (groupByCategory [sampleVideo]).map (mkCategorySection [] [] 0)
        ++ [documentsSection [sampleDoc]] :=
  (sections_structure [] [sampleVideo] [sampleDoc] [] 0).2.2.2.1 (by decide)

end KidsHotline
